import Mathlib

/-!
Shallow embedding of the access-code-gated message and file relay
(`app/routes.py`, `app/models.py`).

The SQLAlchemy database is modelled as lists of rows; the filesystem as a
list of (path, bytes) files plus a list of directories.  Timestamps are
integers; the generated UUID token and the database-assigned row ids are
explicit parameters of the operations that consume them.  Logging is
modelled (as a list of emitted log entries) for the two fetch operations,
whose logging behaviour is the subject of a claim.  The MIME type guessed
by `mimetypes.guess_type` is not modelled: no claim mentions it.
-/

deriving instance DecidableEq for Except

/-- A row of the `messages` table (`app/models.py`, class `Message`). -/
structure Message where
  id : Nat
  type : String
  content : String
  filename : Option String
  created_at : Int
  access_code : String
  creator_ip : String
deriving Repr, DecidableEq

/-- A row of the `file_access` table (`app/models.py`, class `FileAccess`). -/
structure FileAccess where
  id : Nat
  filename : String
  access_code : String
deriving Repr, DecidableEq

/-- The database: the two tables used by the routes. -/
structure DB where
  messages : List Message
  fileAccess : List FileAccess
deriving Repr, DecidableEq

/-- The filesystem: regular files (path, bytes) and directories. -/
structure FS where
  files : List (String × List Nat)
  dirs : List String
deriving Repr, DecidableEq

/-- A raised `HTTPException` (status code and detail string). -/
structure HTTPError where
  status_code : Nat
  detail : String
deriving Repr, DecidableEq

/-- One emitted log line: loguru level and message. -/
structure LogEntry where
  level : String
  message : String
deriving Repr, DecidableEq

/-- The payload of a `FileResponse`: the path served, its bytes, and the
extra response headers that `get_file` attaches (`stream_video` attaches
none). -/
structure FileResponse where
  path : String
  content : List Nat
  headers : List (String × String)
deriving Repr, DecidableEq

/-- The JSON body returned by a successful `upload_file`. -/
structure UploadResult where
  filename : String
  original_filename : String
  size : Nat
deriving Repr, DecidableEq

/-- Constant `UPLOAD_DIR = "uploads"` in `app/routes.py`. -/
def UPLOAD_DIR : String := "uploads"

/-- Constant `MAX_FILE_SIZE = 100 * 1024 * 1024` in `app/routes.py`. -/
def MAX_FILE_SIZE : Nat := 100 * 1024 * 1024

/-- Constant `MAX_ACCESS_CODES_PER_IP = 5` in `app/routes.py`. -/
def MAX_ACCESS_CODES_PER_IP : Nat := 5

/-- The suffix of `l` strictly after the last occurrence of `sep`
(`l` itself when `sep` does not occur). -/
def afterLast (sep : Char) (l : List Char) : List Char :=
  (l.reverse.takeWhile (fun c => c ≠ sep)).reverse

/-- Model of `os.path.join(a, b)` for a single POSIX component pair: an absolute `b`
discards `a`; otherwise a separator is inserted unless `a` is empty or
already ends with one. -/
def ospath_join (a b : String) : String :=
  if b.data.head? = some '/' then b
  else if a = "" then b
  else if a.data.getLast? = some '/' then a ++ b
  else a ++ "/" ++ b

/-- Model of `os.path.join(UPLOAD_DIR, access_code, filename)`: the on-disk location
all four file-handling routes compute for a blob.  The access code is used
verbatim as the middle component. -/
def blobPath (access_code filename : String) : String :=
  ospath_join (ospath_join UPLOAD_DIR access_code) filename

/-- Model of `os.path.dirname(p)`: the part of `p` before its last separator
(empty when `p` has none). -/
def ospath_dirname (p : String) : String :=
  if '/' ∈ p.data then
    String.mk (p.data.take (p.data.length - (afterLast '/' p.data).length - 1))
  else ""

/-- The extension part of `os.path.splitext(p)`: taken from the last dot of
the last path component, except that leading dots of the component never
start an extension. -/
def ospath_splitext_ext (p : String) : String :=
  let b := afterLast '/' p.data
  if '.' ∈ b then
    let tail := afterLast '.' b
    let pre := b.take (b.length - tail.length - 1)
    if pre.any (fun c => c ≠ '.') then String.mk ('.' :: tail) else ""
  else ""

/-- String prefix test on the underlying
character lists. -/
def strStartsWith (pre s : String) : Bool :=
  pre.data.isPrefixOf s.data

/-- Whether path `p` lies strictly under directory `folder`. -/
def underDir (folder p : String) : Bool :=
  strStartsWith (folder ++ "/") p

/-- Model of `not os.listdir(folder)`: the directory has no remaining entries, i.e.
no file and no other directory lies under it. -/
def folderEmpty (fs : FS) (folder : String) : Bool :=
  fs.files.all (fun p => !(underDir folder p.1)) &&
    fs.dirs.all (fun d => !(underDir folder d))

/-- The predicate of the `FileAccess` query shared by `get_file` and
`stream_video`: both the stored filename and the access code must match. -/
def fileAccessMatch (filename access_code : String) (f : FileAccess) : Bool :=
  f.filename == filename && f.access_code == access_code

/-- The predicate of the `Message` query in `delete_message`: both the id
and the access code must match. -/
def messageMatch (message_id : Nat) (access_code : String) (m : Message) : Bool :=
  m.id == message_id && m.access_code == access_code

/-- The number of distinct access codes among the messages created by `ip`:
`COUNT(DISTINCT access_code) WHERE creator_ip = ip`. -/
def distinctAccessCodes (db : DB) (ip : String) : Nat :=
  (((db.messages.filter (fun m => m.creator_ip == ip)).map
    (fun m => m.access_code)).dedup).length

/-- The 429 error raised by both quota-denial branches of `create_message`. -/
def quotaError : HTTPError :=
  ⟨429, "您已达到可创建的最大 access_code 数量限制 (5)"⟩

/-- Route `create_message` (`app/routes.py`).  First the distinct-access-code
count of the origin is compared against the limit and the request rejected
with 429 when it is reached; otherwise the row is inserted, through either
the existing-code branch or the new-code branch (whose inner re-check of
the same count decides between insert and a second 429).  `newId` is the
database-assigned primary key and `now` the UTC+8 timestamp taken at
creation. -/
def create_message (db : DB) (ip : String) (msgType content : String)
    (filename : Option String) (access_code : String) (newId : Nat) (now : Int) :
    DB × Except HTTPError Message :=
  let distinct := distinctAccessCodes db ip
  if distinct ≥ MAX_ACCESS_CODES_PER_IP then
    (db, .error quotaError)
  else
    let existing := db.messages.any
      (fun m => m.access_code == access_code && m.creator_ip == ip)
    if existing then
      let m : Message := ⟨newId, msgType, content, filename, now, access_code, ip⟩
      ({ db with messages := db.messages ++ [m] }, .ok m)
    else
      if distinct < MAX_ACCESS_CODES_PER_IP then
        let m : Message := ⟨newId, msgType, content, filename, now, access_code, ip⟩
        ({ db with messages := db.messages ++ [m] }, .ok m)
      else
        (db, .error quotaError)

/-- Newest-first comparison used by `order_by(Message.created_at.desc())`. -/
def createdDesc (a b : Message) : Prop :=
  b.created_at ≤ a.created_at

instance : DecidableRel createdDesc :=
  fun a b => inferInstanceAs (Decidable (b.created_at ≤ a.created_at))

instance : IsTotal Message createdDesc :=
  ⟨fun a b => Int.le_total b.created_at a.created_at⟩

instance : IsTrans Message createdDesc :=
  ⟨fun _ _ _ hab hbc => le_trans hbc hab⟩

/-- Route `get_messages` (`app/routes.py`): all messages with the given access
code, ordered by `created_at` descending. -/
def get_messages (db : DB) (access_code : String) : List Message :=
  List.insertionSort createdDesc
    (db.messages.filter (fun m => m.access_code == access_code))

/-- Structural worker for the 8 KiB chunking: `fuel` bounds the number of
reads and is instantiated with the length of the byte list, which always
suffices. -/
def chunksAux (fuel : Nat) (l : List Nat) : List (List Nat) :=
  match fuel, l with
  | 0, _ => []
  | _, [] => []
  | fuel + 1, c :: rest => ((c :: rest).take 8192) :: chunksAux fuel ((c :: rest).drop 8192)

/-- The 8 KiB chunking performed by `await file.read(8192)`. -/
def chunks8192 (l : List Nat) : List (List Nat) :=
  chunksAux l.length l

/-- The streaming loop of `upload_file`: after each chunk is read the
running size is bumped and compared against `MAX_FILE_SIZE` before the
chunk is written; exceeding the cap raises 413.  Returns the bytes written
and the final size. -/
def streamLoop (chunks : List (List Nat)) (written : List Nat) (size : Nat) :
    Except HTTPError (List Nat × Nat) :=
  match chunks with
  | [] => .ok (written, size)
  | c :: rest =>
    let size' := size + c.length
    if size' > MAX_FILE_SIZE then .error ⟨413, "文件太大"⟩
    else streamLoop rest (written ++ c) size'

/-- Route `upload_file` (`app/routes.py`).  Ensures the per-access-code
subfolder exists, generates the stored name `uuid ++ extension of the
declared original name`, streams the body under the size cap, and only on
full success registers a `FileAccess` row (with database-assigned id
`faId`).  On 413 the partially written destination file is removed and
nothing is registered. -/
def upload_file (fs : FS) (db : DB) (originalName : String)
    (content : List Nat) (access_code : String) (uuid : String) (faId : Nat) :
    FS × DB × Except HTTPError UploadResult :=
  let subfolder := ospath_join UPLOAD_DIR access_code
  let fs1 := if subfolder ∈ fs.dirs then fs
    else { fs with dirs := subfolder :: fs.dirs }
  let file_extension := ospath_splitext_ext originalName
  let unique_filename := uuid ++ file_extension
  let file_location := ospath_join subfolder unique_filename
  match streamLoop (chunks8192 content) [] 0 with
  | .error e =>
    ({ fs1 with files := fs1.files.filter (fun p => p.1 != file_location) },
     db, .error e)
  | .ok (written, size) =>
    ({ fs1 with files :=
        (file_location, written) :: fs1.files.filter (fun p => p.1 != file_location) },
     { db with fileAccess := db.fileAccess ++ [⟨faId, unique_filename, access_code⟩] },
     .ok ⟨unique_filename, originalName, size⟩)

/-- Route `stream_video` (`app/routes.py`): checks the `FileAccess` row, then
disk presence, each failure a 404; neither failure is logged, only the
success path emits a log line.  The response carries no extra headers. -/
def stream_video (fs : FS) (db : DB) (filename access_code : String) :
    Except HTTPError FileResponse × List LogEntry :=
  match db.fileAccess.find? (fileAccessMatch filename access_code) with
  | none => (.error ⟨404, "文件未找到或访问被拒绝"⟩, [])
  | some _ =>
    let file_path := blobPath access_code filename
    match fs.files.find? (fun p => p.1 == file_path) with
    | none => (.error ⟨404, "文件未找到"⟩, [])
    | some (_, content) =>
      (.ok ⟨file_path, content, []⟩,
       [⟨"INFO", "准备发送文件<video>元素: " ++ filename ++ ", 大小: "
          ++ toString content.length ++ " bytes"⟩])

/-- Route `get_file` (`app/routes.py`): same two checks as `stream_video`, but
each failure is logged (WARNING for a missing or mismatched `FileAccess`
row, ERROR for a row whose file is absent on disk) and the success
response carries a Content-Disposition attachment header naming the stored
filename, plus Content-Length. -/
def get_file (fs : FS) (db : DB) (ip : String) (filename access_code : String) :
    Except HTTPError FileResponse × List LogEntry :=
  let entryLog : LogEntry :=
    ⟨"INFO", "收到来自 " ++ ip ++ " 的访问文件请求: " ++ filename
      ++ ", 访问码: " ++ access_code⟩
  match db.fileAccess.find? (fileAccessMatch filename access_code) with
  | none =>
    (.error ⟨404, "文件未找到或访问被拒绝"⟩,
     [entryLog, ⟨"WARNING", "访问被拒绝或文件未找到: " ++ filename ++ ", IP: " ++ ip⟩])
  | some _ =>
    let file_path := blobPath access_code filename
    match fs.files.find? (fun p => p.1 == file_path) with
    | none =>
      (.error ⟨404, "文件未找到"⟩,
       [entryLog, ⟨"ERROR", "文件在磁盘上未找到: " ++ filename ++ ", IP: " ++ ip⟩])
    | some (_, content) =>
      (.ok ⟨file_path, content,
          [("Content-Disposition", "attachment; filename=\"" ++ filename ++ "\""),
           ("Content-Length", toString content.length)]⟩,
       [entryLog, ⟨"INFO", "文件访问已授权: " ++ filename ++ ", IP: " ++ ip⟩])

/-- Route `delete_message` (`app/routes.py`): finds the row matching both id and
access code (404 when none); when its type is image, file or video and its
content non-empty, removes the blob from disk if present and prunes the
per-access-code folder if that left it empty; finally deletes the message
row.  The `FileAccess` table is not touched. -/
def delete_message (fs : FS) (db : DB) (message_id : Nat) (access_code : String) :
    FS × DB × Except HTTPError String :=
  match db.messages.find? (messageMatch message_id access_code) with
  | none => (fs, db, .error ⟨404, "消息未找到"⟩)
  | some message =>
    let fs' :=
      if (message.type == "image" || message.type == "file" || message.type == "video")
          && message.content != "" then
        let file_path := blobPath access_code message.content
        if fs.files.any (fun p => p.1 == file_path) then
          let fs1 := { fs with files := fs.files.filter (fun p => p.1 != file_path) }
          let folder_path := ospath_dirname file_path
          if folderEmpty fs1 folder_path then
            { fs1 with dirs := fs1.dirs.filter (fun d => d != folder_path) }
          else fs1
        else fs
      else fs
    (fs', { db with messages := db.messages.eraseP (messageMatch message_id access_code) },
     .ok "消息已删除")

/-- POSIX resolution of the relative path `p`: split on the separator,
drop empty and `.` components, let `..` pop the previous component.  Used
to state where an unsanitised access code actually lands on disk. -/
def splitOnChar (sep : Char) : List Char → List (List Char)
  | [] => [[]]
  | c :: rest =>
    match splitOnChar sep rest with
    | [] => if c = sep then [[], []] else [[c]]
    | g :: gs => if c = sep then [] :: g :: gs else (c :: g) :: gs

/-- The components of `p` after resolving `.` and `..` (relative paths). -/
def normSplit (p : String) : List String :=
  (splitOnChar '/' p.data).foldl
    (fun acc comp =>
      if comp = [] ∨ comp = ['.'] then acc
      else if comp = ['.', '.'] then acc.dropLast
      else acc ++ [String.mk comp]) []

/-- The novelty-independent abstraction of `create_message` used to state
claim C9: admit and append exactly when the distinct-code count of the
origin is below the limit, ignoring whether the access code is new for
this origin. -/
def create_message_count_only (db : DB) (ip : String) (msgType content : String)
    (filename : Option String) (access_code : String) (newId : Nat) (now : Int) :
    DB × Except HTTPError Message :=
  if distinctAccessCodes db ip ≥ MAX_ACCESS_CODES_PER_IP then
    (db, .error quotaError)
  else
    let m : Message := ⟨newId, msgType, content, filename, now, access_code, ip⟩
    ({ db with messages := db.messages ++ [m] }, .ok m)

/-- Fixture: an origin that has already created five distinct access codes,
among them `c1`. -/
def dbQuota : DB :=
  ⟨[⟨1, "text", "m1", none, 1, "c1", "1.2.3.4"⟩,
    ⟨2, "text", "m2", none, 2, "c2", "1.2.3.4"⟩,
    ⟨3, "text", "m3", none, 3, "c3", "1.2.3.4"⟩,
    ⟨4, "text", "m4", none, 4, "c4", "1.2.3.4"⟩,
    ⟨5, "text", "m5", none, 5, "c5", "1.2.3.4"⟩], []⟩

/-- Fixture: a file-typed message whose blob is registered under the same
access code. -/
def msgFile : Message := ⟨1, "file", "u.txt", some "orig.txt", 0, "abc", "9.9.9.9"⟩

/-- Fixture: the `FileAccess` row authorising `msgFile`'s blob. -/
def faRow : FileAccess := ⟨1, "u.txt", "abc"⟩

/-- Fixture: database holding `msgFile` and `faRow`. -/
def dbFile : DB := ⟨[msgFile], [faRow]⟩

/-- Fixture: filesystem holding the blob of `msgFile`. -/
def fsFile : FS := ⟨[("uploads/abc/u.txt", [7, 8])], ["uploads", "uploads/abc"]⟩

/-- Fixture: the same layout but with the blob absent from disk. -/
def fsMissing : FS := ⟨[], ["uploads", "uploads/abc"]⟩

/-- Characters of `afterLast sep l` come from `l` and are never `sep`. -/
theorem mem_afterLast {sep : Char} {l : List Char} {c : Char}
    (h : c ∈ afterLast sep l) : c ∈ l ∧ c ≠ sep := by
  unfold afterLast at h
  rw [List.mem_reverse] at h
  refine ⟨?_, ?_⟩
  · exact List.mem_reverse.mp ((List.takeWhile_sublist _).subset h)
  · simpa using List.mem_takeWhile_imp h

/-- The extension computed by `os.path.splitext` never contains a path
separator. -/
theorem ext_no_slash (p : String) : ∀ c ∈ (ospath_splitext_ext p).data, c ≠ '/' := by
  intro c hc
  simp only [ospath_splitext_ext] at hc
  split at hc
  · split at hc
    · have hmk : (String.mk ('.' :: afterLast '.' (afterLast '/' p.data))).data
          = '.' :: afterLast '.' (afterLast '/' p.data) := rfl
      rw [hmk] at hc
      rcases List.mem_cons.mp hc with rfl | hc'
      · decide
      · exact (mem_afterLast (mem_afterLast hc').1).2
    · simp [String.data] at hc
  · simp [String.data] at hc

/-- When the whole body fits under the cap, the streaming loop writes all
bytes and returns the total size. -/
theorem streamLoop_aux_ok (fuel : Nat) :
    ∀ (l w : List Nat) (size : Nat), l.length ≤ fuel →
      size + l.length ≤ MAX_FILE_SIZE →
      streamLoop (chunksAux fuel l) w size = .ok (w ++ l, size + l.length) := by
  induction fuel with
  | zero =>
    intro l w size hf h
    have hl : l = [] := List.eq_nil_of_length_eq_zero (Nat.le_zero.mp hf)
    subst hl
    simp [chunksAux, streamLoop]
  | succ fuel ih =>
    intro l w size hf h
    match l with
    | [] => simp [chunksAux, streamLoop]
    | c :: rest =>
      have hlen : (List.take 8192 (c :: rest)).length
          + (List.drop 8192 (c :: rest)).length = (c :: rest).length := by
        rw [List.length_take, List.length_drop]
        have := List.length_cons c rest
        omega
      have hrest : (List.drop 8192 (c :: rest)).length ≤ fuel := by
        rw [List.length_drop]
        have := List.length_cons c rest
        omega
      rw [chunksAux]
      simp only [streamLoop]
      rw [if_neg (by omega)]
      rw [ih (List.drop 8192 (c :: rest)) (w ++ List.take 8192 (c :: rest))
        (size + (List.take 8192 (c :: rest)).length) hrest (by omega)]
      rw [List.append_assoc, List.take_append_drop]
      have h2 : size + (List.take 8192 (c :: rest)).length
          + (List.drop 8192 (c :: rest)).length = size + (c :: rest).length := by omega
      rw [h2]

/-- Lemma `streamLoop_aux_ok` at the fuel value used by `chunks8192`. -/
theorem streamLoop_ok (l : List Nat) (w : List Nat) (size : Nat)
    (h : size + l.length ≤ MAX_FILE_SIZE) :
    streamLoop (chunks8192 l) w size = .ok (w ++ l, size + l.length) :=
  streamLoop_aux_ok l.length l w size (Nat.le_refl _) h

/-- When the body exceeds the cap, the streaming loop aborts with 413. -/
theorem streamLoop_aux_err (fuel : Nat) :
    ∀ (l w : List Nat) (size : Nat), l.length ≤ fuel → size ≤ MAX_FILE_SIZE →
      MAX_FILE_SIZE < size + l.length →
      streamLoop (chunksAux fuel l) w size = .error ⟨413, "文件太大"⟩ := by
  induction fuel with
  | zero =>
    intro l w size hf h1 h2
    have hl : l = [] := List.eq_nil_of_length_eq_zero (Nat.le_zero.mp hf)
    subst hl
    exact absurd (by simpa using h2) (Nat.not_lt.mpr h1)
  | succ fuel ih =>
    intro l w size hf h1 h2
    match l with
    | [] => exact absurd (by simpa using h2) (Nat.not_lt.mpr h1)
    | c :: rest =>
      have hlen : (List.take 8192 (c :: rest)).length
          + (List.drop 8192 (c :: rest)).length = (c :: rest).length := by
        rw [List.length_take, List.length_drop]
        have := List.length_cons c rest
        omega
      have hrest : (List.drop 8192 (c :: rest)).length ≤ fuel := by
        rw [List.length_drop]
        have := List.length_cons c rest
        omega
      rw [chunksAux]
      simp only [streamLoop]
      by_cases hb : size + (List.take 8192 (c :: rest)).length > MAX_FILE_SIZE
      · rw [if_pos hb]
      · rw [if_neg hb]
        exact ih _ _ _ hrest (by omega) (by omega)

/-- Lemma `streamLoop_aux_err` at the fuel value used by `chunks8192`. -/
theorem streamLoop_err (l : List Nat) (w : List Nat) (size : Nat)
    (h1 : size ≤ MAX_FILE_SIZE) (h2 : MAX_FILE_SIZE < size + l.length) :
    streamLoop (chunks8192 l) w size = .error ⟨413, "文件太大"⟩ :=
  streamLoop_aux_err l.length l w size (Nat.le_refl _) h1 h2

/-- A row matched by `messageMatch` carries the queried id. -/
theorem messageMatch_id {message_id : Nat} {access_code : String} {m : Message}
    (h : messageMatch message_id access_code m = true) : m.id = message_id := by
  simp [messageMatch] at h
  exact h.1

/-- Erasing the first row matching `(id, access_code)` from a table whose
ids are unique leaves no row matching that pair. -/
theorem find?_eraseP_of_nodup_ids (message_id : Nat) (access_code : String) :
    ∀ l : List Message, (l.map Message.id).Nodup →
      (l.eraseP (messageMatch message_id access_code)).find?
        (messageMatch message_id access_code) = none := by
  intro l
  induction l with
  | nil => intro _; rfl
  | cons m rest ih =>
    intro hnd
    rw [List.map_cons, List.nodup_cons] at hnd
    by_cases hm : messageMatch message_id access_code m = true
    · rw [List.eraseP_cons_of_pos hm]
      rw [List.find?_eq_none]
      intro x hx hpx
      exact hnd.1 (by
        rw [messageMatch_id hm, ← messageMatch_id hpx]
        exact List.mem_map_of_mem Message.id hx)
    · rw [List.eraseP_cons_of_neg hm]
      have hm' : messageMatch message_id access_code m = false := by
        simpa using hm
      rw [List.find?_cons, hm']
      exact ih hnd.2

/-- Appending a matching row to a table makes the lookup succeed. -/
theorem find?_append_singleton {α : Type} (p : α → Bool) (l : List α) (a : α)
    (h : p a = true) : ∃ b, (l ++ [a]).find? p = some b := by
  rw [List.find?_append]
  cases hf : l.find? p with
  | none => exact ⟨a, by rw [List.find?_cons, h]; rfl⟩
  | some b => exact ⟨b, rfl⟩

/-- C5: `get_messages` returns exactly the messages whose access code
matches (a permutation of the filtered table), every returned message
carries that access code (so messages under other codes are excluded), and
the result is ordered by `created_at` descending, newest first. -/
theorem C5_list_by_code_exact_and_ordered (db : DB) (access_code : String) :
    (∀ m ∈ get_messages db access_code, m.access_code = access_code) ∧
    (get_messages db access_code).Perm
      (db.messages.filter (fun m => m.access_code == access_code)) ∧
    List.Sorted createdDesc (get_messages db access_code) := by
  refine ⟨?_, List.perm_insertionSort _ _, List.sorted_insertionSort _ _⟩
  intro m hm
  simp only [get_messages] at hm
  have h1 := (List.perm_insertionSort createdDesc
    (db.messages.filter (fun m => m.access_code == access_code))).mem_iff.mp hm
  simpa using List.of_mem_filter h1

/-- C9: the admit or deny decision of `create_message` depends only on the
distinct-code count of the origin, not on whether the access code is new:
the function is extensionally equal to its novelty-independent abstraction,
so below the limit creation always succeeds and the quota-denial branch
inside the new-code path is unreachable. -/
theorem C9_admit_depends_only_on_count (db : DB) (ip msgType content : String)
    (filename : Option String) (access_code : String) (newId : Nat) (now : Int) :
    create_message db ip msgType content filename access_code newId now
      = create_message_count_only db ip msgType content filename access_code newId now := by
  simp only [create_message, create_message_count_only]
  split_ifs with h1 h2 h3
  · rfl
  · rfl
  · rfl
  · exact absurd (Nat.lt_of_not_le h1) h3

/-- C10: the access code is spliced verbatim into the on-disk path with no
sanitisation; for the access code `../x` the computed location resolves
outside the uploads root, and all four file-handling operations actually
use that escaped location. -/
theorem C10_access_code_used_verbatim_escapes :
    normSplit (blobPath "abc" "f.txt") = ["uploads", "abc", "f.txt"] ∧
    normSplit (blobPath "../x" "f.txt") = ["x", "f.txt"] ∧
    "uploads" ∉ normSplit (blobPath "../x" "f.txt") ∧
    (upload_file ⟨[], []⟩ ⟨[], []⟩ "a.txt" [9] "../x" "u1" 1).1.files
      = [("uploads/../x/u1.txt", [9])] ∧
    (get_file ⟨[("uploads/../x/f.txt", [1])], []⟩ ⟨[], [⟨1, "f.txt", "../x"⟩]⟩
        "ip" "f.txt" "../x").1
      = .ok ⟨"uploads/../x/f.txt", [1],
          [("Content-Disposition", "attachment; filename=\"f.txt\""),
           ("Content-Length", "1")]⟩ ∧
    (stream_video ⟨[("uploads/../x/f.txt", [1])], []⟩ ⟨[], [⟨1, "f.txt", "../x"⟩]⟩
        "f.txt" "../x").1
      = .ok ⟨"uploads/../x/f.txt", [1], []⟩ ∧
    (delete_message ⟨[("uploads/../x/f.txt", [1])], []⟩
        ⟨[⟨1, "file", "f.txt", none, 0, "../x", "ip"⟩], []⟩ 1 "../x").1.files = [] := by
  decide

/-- C2 fails as stated: the origin of `dbQuota` already owns the access
code `c1`, yet its request to post another message under `c1` is denied
with the 429 quota error because it owns five distinct codes. -/
theorem C2_counterexample :
    (∃ m ∈ dbQuota.messages, m.access_code = "c1" ∧ m.creator_ip = "1.2.3.4") ∧
    MAX_ACCESS_CODES_PER_IP ≤ distinctAccessCodes dbQuota "1.2.3.4" ∧
    (create_message dbQuota "1.2.3.4" "text" "hello" none "c1" 6 99).2
      = .error quotaError := by
  decide

/-- C2 amended: `create_message` denies with the 429 quota error exactly
when the origin already owns at least `MAX_ACCESS_CODES_PER_IP` distinct
access codes, regardless of whether the requested code is new or already
owned by the origin; below the limit the row is inserted. -/
theorem C2_quota_denial_on_count (db : DB) (ip msgType content : String)
    (filename : Option String) (access_code : String) (newId : Nat) (now : Int) :
    (MAX_ACCESS_CODES_PER_IP ≤ distinctAccessCodes db ip →
      create_message db ip msgType content filename access_code newId now
        = (db, .error quotaError)) ∧
    (distinctAccessCodes db ip < MAX_ACCESS_CODES_PER_IP →
      create_message db ip msgType content filename access_code newId now
        = ({ db with messages := db.messages
              ++ [⟨newId, msgType, content, filename, now, access_code, ip⟩] },
           .ok ⟨newId, msgType, content, filename, now, access_code, ip⟩)) := by
  constructor
  · intro h
    simp only [create_message]
    rw [if_pos h]
  · intro h
    simp only [create_message]
    rw [if_neg (Nat.not_le.mpr h)]
    by_cases he : (db.messages.any
        fun m => m.access_code == access_code && m.creator_ip == ip) = true
    · rw [if_pos he]
    · rw [if_neg he, if_pos h]

/-- Witness for the amended C2 at a concrete origin over the limit. -/
theorem C2_quota_denial_on_count_witness :
    MAX_ACCESS_CODES_PER_IP ≤ distinctAccessCodes dbQuota "1.2.3.4" ∧
    create_message dbQuota "1.2.3.4" "text" "hi" none "c9" 6 0
      = (dbQuota, .error quotaError) := by
  have h : MAX_ACCESS_CODES_PER_IP ≤ distinctAccessCodes dbQuota "1.2.3.4" := by decide
  exact ⟨h, (C2_quota_denial_on_count dbQuota "1.2.3.4" "text" "hi" none "c9" 6 0).1 h⟩

/-- C3: an upload whose cumulative byte count exceeds the 100 MiB cap
fails with 413, the partially written destination file is deleted (the
remaining files are exactly the prior ones minus the destination), and no
FileAccess row is registered for the attempt. -/
theorem C3_upload_too_large (fs : FS) (db : DB) (originalName : String)
    (content : List Nat) (access_code uuid : String) (faId : Nat)
    (h : MAX_FILE_SIZE < content.length) :
    (upload_file fs db originalName content access_code uuid faId).2.2
      = .error ⟨413, "文件太大"⟩ ∧
    (upload_file fs db originalName content access_code uuid faId).2.1 = db ∧
    (upload_file fs db originalName content access_code uuid faId).1.files
      = fs.files.filter (fun p => p.1 !=
          ospath_join (ospath_join UPLOAD_DIR access_code)
            (uuid ++ ospath_splitext_ext originalName)) := by
  have herr := streamLoop_err content [] 0 (Nat.zero_le _) (by simpa using h)
  simp only [upload_file, herr]
  refine ⟨by trivial, by trivial, ?_⟩
  split
  · trivial
  · trivial

/-- Witness for C3: a body one byte over the cap is rejected with 413 and
registers nothing. -/
theorem C3_upload_too_large_witness :
    MAX_FILE_SIZE < (List.replicate (MAX_FILE_SIZE + 1) 0).length ∧
    (upload_file ⟨[], ["uploads"]⟩ ⟨[], []⟩ "a.bin"
        (List.replicate (MAX_FILE_SIZE + 1) 0) "abc" "u1" 1).2.2
      = .error ⟨413, "文件太大"⟩ ∧
    (upload_file ⟨[], ["uploads"]⟩ ⟨[], []⟩ "a.bin"
        (List.replicate (MAX_FILE_SIZE + 1) 0) "abc" "u1" 1).2.1 = ⟨[], []⟩ := by
  have h : MAX_FILE_SIZE < (List.replicate (MAX_FILE_SIZE + 1) 0).length := by
    simp
  exact ⟨h, (C3_upload_too_large _ _ _ _ _ _ _ h).1,
    (C3_upload_too_large _ _ _ _ _ _ _ h).2.1⟩

/-- C4 amended: for both fetch routes, a missing or mismatched FileAccess
row and a registered file absent from disk each yield HTTP 404 and never
file content, but the two kinds carry different detail strings, so the
response bodies distinguish them; `get_file` logs the first kind as
WARNING and the second as ERROR while `stream_video` logs neither. -/
theorem C4_fetch_failures (fs : FS) (db : DB) (ip filename access_code : String) :
    (db.fileAccess.find? (fileAccessMatch filename access_code) = none →
      (get_file fs db ip filename access_code).1
          = .error ⟨404, "文件未找到或访问被拒绝"⟩ ∧
      (stream_video fs db filename access_code).1
          = .error ⟨404, "文件未找到或访问被拒绝"⟩ ∧
      ((get_file fs db ip filename access_code).2.map LogEntry.level)
          = ["INFO", "WARNING"] ∧
      (stream_video fs db filename access_code).2 = []) ∧
    (∀ f, db.fileAccess.find? (fileAccessMatch filename access_code) = some f →
      fs.files.find? (fun p => p.1 == blobPath access_code filename) = none →
      (get_file fs db ip filename access_code).1 = .error ⟨404, "文件未找到"⟩ ∧
      (stream_video fs db filename access_code).1 = .error ⟨404, "文件未找到"⟩ ∧
      ((get_file fs db ip filename access_code).2.map LogEntry.level)
          = ["INFO", "ERROR"] ∧
      (stream_video fs db filename access_code).2 = []) ∧
    ("文件未找到或访问被拒绝" ≠ "文件未找到") := by
  refine ⟨?_, ?_, by decide⟩
  · intro h
    simp only [get_file, stream_video, h]
    exact ⟨by trivial, by trivial, by trivial, by trivial⟩
  · intro f hf hd
    simp only [get_file, stream_video, hf, hd]
    exact ⟨by trivial, by trivial, by trivial, by trivial⟩

/-- Witness for the amended C4 at concrete states exercising both failure
kinds of `get_file`. -/
theorem C4_fetch_failures_witness :
    dbFile.fileAccess.find? (fileAccessMatch "u.txt" "wrong") = none ∧
    (get_file fsFile dbFile "ip" "u.txt" "wrong").1
      = .error ⟨404, "文件未找到或访问被拒绝"⟩ ∧
    fsMissing.files.find? (fun p => p.1 == blobPath "abc" "u.txt") = none ∧
    (get_file fsMissing dbFile "ip" "u.txt" "abc").1 = .error ⟨404, "文件未找到"⟩ := by
  have h1 : dbFile.fileAccess.find? (fileAccessMatch "u.txt" "wrong") = none := by decide
  have h2 : dbFile.fileAccess.find? (fileAccessMatch "u.txt" "abc") = some faRow := by
    decide
  have h3 : fsMissing.files.find? (fun p => p.1 == blobPath "abc" "u.txt") = none := by
    decide
  exact ⟨h1, ((C4_fetch_failures fsFile dbFile "ip" "u.txt" "wrong").1 h1).1,
    h3, ((C4_fetch_failures fsMissing dbFile "ip" "u.txt" "abc").2.1 faRow h2 h3).1⟩

/-- C4 fails as stated on the indistinguishability conjunct: at a concrete
state the two failure kinds produce different 404 responses, so the caller
can tell them apart; `stream_video` moreover logs neither failure. -/
theorem C4_counterexample :
    (get_file fsFile dbFile "ip" "u.txt" "wrong").1
      = .error ⟨404, "文件未找到或访问被拒绝"⟩ ∧
    (get_file fsMissing dbFile "ip" "u.txt" "abc").1 = .error ⟨404, "文件未找到"⟩ ∧
    (get_file fsFile dbFile "ip" "u.txt" "wrong").1
      ≠ (get_file fsMissing dbFile "ip" "u.txt" "abc").1 ∧
    (stream_video fsMissing dbFile "u.txt" "abc").2 = [] := by
  decide

/-- C6: `delete_message` deletes only when a row matches both the id and
the access code; otherwise, including when the id exists under a different
access code, it leaves the state unchanged and returns the one fixed 404
error; with unique ids a second delete of the same pair returns that same
404 rather than failing differently. -/
theorem C6_delete_requires_both_and_second_404
    (fs : FS) (db : DB) (message_id : Nat) (access_code : String)
    (hids : (db.messages.map Message.id).Nodup) :
    ((∀ m ∈ db.messages, ¬(m.id = message_id ∧ m.access_code = access_code)) →
      delete_message fs db message_id access_code
        = (fs, db, .error ⟨404, "消息未找到"⟩)) ∧
    (∀ s, (delete_message fs db message_id access_code).2.2 = .ok s →
      ∃ m ∈ db.messages, m.id = message_id ∧ m.access_code = access_code) ∧
    (∀ s, (delete_message fs db message_id access_code).2.2 = .ok s →
      (delete_message (delete_message fs db message_id access_code).1
          (delete_message fs db message_id access_code).2.1
          message_id access_code).2.2
        = .error ⟨404, "消息未找到"⟩) := by
  refine ⟨?_, ?_, ?_⟩
  · intro h
    have hfind : db.messages.find? (messageMatch message_id access_code) = none := by
      rw [List.find?_eq_none]
      intro x hx hpx
      simp [messageMatch] at hpx
      exact h x hx hpx
    simp only [delete_message, hfind]
  · intro s hs
    cases hfind : db.messages.find? (messageMatch message_id access_code) with
    | none =>
      simp only [delete_message, hfind] at hs
      exact Except.noConfusion hs
    | some m =>
      have hmem := List.mem_of_find?_eq_some hfind
      have hp := List.find?_some hfind
      simp [messageMatch] at hp
      exact ⟨m, hmem, hp⟩
  · intro s hs
    cases hfind : db.messages.find? (messageMatch message_id access_code) with
    | none =>
      simp only [delete_message, hfind] at hs
      exact Except.noConfusion hs
    | some m =>
      set r := delete_message fs db message_id access_code with hr
      have h2 : r.2.1.messages
          = db.messages.eraseP (messageMatch message_id access_code) := by
        rw [hr]
        simp only [delete_message, hfind]
      have hB : r.2.1.messages.find? (messageMatch message_id access_code) = none := by
        rw [h2]
        exact find?_eraseP_of_nodup_ids message_id access_code db.messages hids
      simp only [delete_message, hB]

/-- Witness for C6 at concrete states: a mismatched code changes nothing
and returns 404, and a repeated delete of the same pair returns 404. -/
theorem C6_delete_witness :
    (dbFile.messages.map Message.id).Nodup ∧
    (∀ m ∈ dbFile.messages, ¬(m.id = 1 ∧ m.access_code = "zzz")) ∧
    delete_message fsFile dbFile 1 "zzz" = (fsFile, dbFile, .error ⟨404, "消息未找到"⟩) ∧
    (delete_message (delete_message fsFile dbFile 1 "abc").1
        (delete_message fsFile dbFile 1 "abc").2.1 1 "abc").2.2
      = .error ⟨404, "消息未找到"⟩ := by
  have hids : (dbFile.messages.map Message.id).Nodup := by decide
  have hno : ∀ m ∈ dbFile.messages, ¬(m.id = 1 ∧ m.access_code = "zzz") := by decide
  have hok : (delete_message fsFile dbFile 1 "abc").2.2 = .ok "消息已删除" := by decide
  exact ⟨hids, hno,
    (C6_delete_requires_both_and_second_404 fsFile dbFile 1 "zzz" hids).1 hno,
    (C6_delete_requires_both_and_second_404 fsFile dbFile 1 "abc" hids).2.2 _ hok⟩

/-- C7 amended: uploading a file and fetching it under the same access
code returns byte-identical content, but the Content-Disposition
attachment header names the stored (generated) filename, not the original
name supplied at upload time. -/
theorem C7_roundtrip_content_stored_disposition
    (fs : FS) (db : DB) (originalName : String) (content : List Nat)
    (access_code uuid ip : String) (faId : Nat)
    (hsize : content.length ≤ MAX_FILE_SIZE) :
    ∃ resp : FileResponse,
      (get_file (upload_file fs db originalName content access_code uuid faId).1
          (upload_file fs db originalName content access_code uuid faId).2.1
          ip (uuid ++ ospath_splitext_ext originalName) access_code).1 = .ok resp ∧
      resp.content = content ∧
      ("Content-Disposition",
        "attachment; filename=\"" ++ (uuid ++ ospath_splitext_ext originalName) ++ "\"")
        ∈ resp.headers := by
  have hok := streamLoop_ok content [] 0 (by simpa using hsize)
  rw [List.nil_append] at hok
  have hdb : (upload_file fs db originalName content access_code uuid faId).2.1.fileAccess
      = db.fileAccess ++ [⟨faId, uuid ++ ospath_splitext_ext originalName, access_code⟩] := by
    simp only [upload_file, hok]
  obtain ⟨b, hb⟩ : ∃ b,
      (upload_file fs db originalName content access_code uuid faId).2.1.fileAccess.find?
        (fileAccessMatch (uuid ++ ospath_splitext_ext originalName) access_code) = some b := by
    rw [hdb]
    exact find?_append_singleton _ _ _ (by simp [fileAccessMatch])
  obtain ⟨rest, hrest⟩ : ∃ rest,
      (upload_file fs db originalName content access_code uuid faId).1.files
        = (blobPath access_code (uuid ++ ospath_splitext_ext originalName), content) :: rest := by
    simp only [upload_file, hok, blobPath]
    exact ⟨_, rfl⟩
  have hfind2 : (upload_file fs db originalName content access_code uuid faId).1.files.find?
      (fun p => p.1 == blobPath access_code (uuid ++ ospath_splitext_ext originalName))
      = some (blobPath access_code (uuid ++ ospath_splitext_ext originalName), content) := by
    rw [hrest, List.find?_cons]
    simp
  refine ⟨⟨blobPath access_code (uuid ++ ospath_splitext_ext originalName), content,
      [("Content-Disposition",
        "attachment; filename=\"" ++ (uuid ++ ospath_splitext_ext originalName) ++ "\""),
       ("Content-Length", toString content.length)]⟩, ?_, rfl, by simp⟩
  simp only [get_file, hb, hfind2]

/-- Witness for the amended C7 at a small concrete upload. -/
theorem C7_roundtrip_witness :
    ([1, 2, 3] : List Nat).length ≤ MAX_FILE_SIZE ∧
    ∃ resp : FileResponse,
      (get_file (upload_file ⟨[], ["uploads"]⟩ ⟨[], []⟩ "report.pdf" [1, 2, 3] "abc" "u1" 1).1
          (upload_file ⟨[], ["uploads"]⟩ ⟨[], []⟩ "report.pdf" [1, 2, 3] "abc" "u1" 1).2.1
          "ip" ("u1" ++ ospath_splitext_ext "report.pdf") "abc").1 = .ok resp ∧
      resp.content = [1, 2, 3] ∧
      ("Content-Disposition",
        "attachment; filename=\"" ++ ("u1" ++ ospath_splitext_ext "report.pdf") ++ "\"")
        ∈ resp.headers := by
  have h : ([1, 2, 3] : List Nat).length ≤ MAX_FILE_SIZE := by decide
  exact ⟨h, C7_roundtrip_content_stored_disposition ⟨[], ["uploads"]⟩ ⟨[], []⟩
    "report.pdf" [1, 2, 3] "abc" "u1" "ip" 1 h⟩

/-- C7 fails as stated: after uploading `report.pdf` the fetched response
carries the Content-Disposition filename `u1.pdf`, the stored name, which
differs from the original name supplied at upload time. -/
theorem C7_counterexample :
    (upload_file ⟨[], ["uploads"]⟩ ⟨[], []⟩ "report.pdf" [1, 2, 3] "abc" "u1" 1).2.2
      = .ok ⟨"u1.pdf", "report.pdf", 3⟩ ∧
    (get_file (upload_file ⟨[], ["uploads"]⟩ ⟨[], []⟩ "report.pdf" [1, 2, 3] "abc" "u1" 1).1
        (upload_file ⟨[], ["uploads"]⟩ ⟨[], []⟩ "report.pdf" [1, 2, 3] "abc" "u1" 1).2.1
        "ip" "u1.pdf" "abc").1
      = .ok ⟨"uploads/abc/u1.pdf", [1, 2, 3],
          [("Content-Disposition", "attachment; filename=\"u1.pdf\""),
           ("Content-Length", "3")]⟩ ∧
    ("u1.pdf" : String) ≠ "report.pdf" := by
  decide

/-- C8: the stored filename is the freshly generated token plus the
extension of the declared original name; that extension never contains a
path separator, so the user-supplied original name is never used as a
storage path component — its only influence on the stored location is the
separator-free extension. -/
theorem C8_stored_name_token_plus_ext (fs : FS) (db : DB) (originalName : String)
    (content : List Nat) (access_code uuid : String) (faId : Nat)
    (hsize : content.length ≤ MAX_FILE_SIZE) :
    (upload_file fs db originalName content access_code uuid faId).2.2
      = .ok ⟨uuid ++ ospath_splitext_ext originalName, originalName, content.length⟩ ∧
    (∀ c ∈ (ospath_splitext_ext originalName).data, c ≠ '/') ∧
    (⟨faId, uuid ++ ospath_splitext_ext originalName, access_code⟩ : FileAccess)
      ∈ (upload_file fs db originalName content access_code uuid faId).2.1.fileAccess ∧
    (blobPath access_code (uuid ++ ospath_splitext_ext originalName), content)
      ∈ (upload_file fs db originalName content access_code uuid faId).1.files := by
  have hok := streamLoop_ok content [] 0 (by simpa using hsize)
  rw [List.nil_append] at hok
  refine ⟨?_, ext_no_slash originalName, ?_, ?_⟩
  · simp only [upload_file, hok]
    simp
  · simp only [upload_file, hok]
    simp
  · simp only [upload_file, hok, blobPath]
    simp

/-- Witness for C8 at a small concrete upload. -/
theorem C8_stored_name_witness :
    ([1, 2, 3] : List Nat).length ≤ MAX_FILE_SIZE ∧
    (upload_file ⟨[], ["uploads"]⟩ ⟨[], []⟩ "report.pdf" [1, 2, 3] "abc" "u1" 1).2.2
      = .ok ⟨"u1" ++ ospath_splitext_ext "report.pdf", "report.pdf",
          ([1, 2, 3] : List Nat).length⟩ := by
  have h : ([1, 2, 3] : List Nat).length ≤ MAX_FILE_SIZE := by decide
  exact ⟨h, (C8_stored_name_token_plus_ext ⟨[], ["uploads"]⟩ ⟨[], []⟩
    "report.pdf" [1, 2, 3] "abc" "u1" 1 h).1⟩

/-- C1 fails as stated: deleting the file-typed message removes the row
and the blob and prunes the folder, but the matching FileAccess row is
still present afterwards — `delete_message` never touches that table. -/
theorem C1_counterexample :
    msgFile.type = "file" ∧ msgFile.content ≠ "" ∧
    (delete_message fsFile dbFile 1 "abc").2.2 = .ok "消息已删除" ∧
    (delete_message fsFile dbFile 1 "abc").1.files = [] ∧
    faRow ∈ (delete_message fsFile dbFile 1 "abc").2.1.fileAccess := by
  decide

/-- C1 amended: deleting a message of type image, file or video with
non-empty content removes the Message row, removes the blob from disk and
prunes the per-code directory when it became empty, but leaves the
FileAccess table unchanged. -/
theorem C1_delete_keeps_fileaccess (fs : FS) (db : DB) (message_id : Nat)
    (access_code : String) (m : Message)
    (hfind : db.messages.find? (messageMatch message_id access_code) = some m)
    (htype : m.type = "image" ∨ m.type = "file" ∨ m.type = "video")
    (hcontent : m.content ≠ "")
    (hids : (db.messages.map Message.id).Nodup) :
    (delete_message fs db message_id access_code).2.2 = .ok "消息已删除" ∧
    (delete_message fs db message_id access_code).2.1.messages.find?
      (messageMatch message_id access_code) = none ∧
    (delete_message fs db message_id access_code).2.1.fileAccess = db.fileAccess ∧
    (∀ bytes, (blobPath access_code m.content, bytes)
      ∉ (delete_message fs db message_id access_code).1.files) ∧
    ((∃ p ∈ fs.files, p.1 = blobPath access_code m.content) →
      folderEmpty ⟨fs.files.filter (fun p => p.1 != blobPath access_code m.content), fs.dirs⟩
        (ospath_dirname (blobPath access_code m.content)) = true →
      ospath_dirname (blobPath access_code m.content)
        ∉ (delete_message fs db message_id access_code).1.dirs) := by
  have hcond : ((m.type == "image" || m.type == "file" || m.type == "video")
      && (m.content != "")) = true := by
    rcases htype with h | h | h <;> simp [h, hcontent]
  have hmsgs : (delete_message fs db message_id access_code).2.1.messages
      = db.messages.eraseP (messageMatch message_id access_code) := by
    simp only [delete_message, hfind]
  refine ⟨?_, ?_, ?_, ?_, ?_⟩
  · simp only [delete_message, hfind]
  · rw [hmsgs]
    exact find?_eraseP_of_nodup_ids message_id access_code db.messages hids
  · simp only [delete_message, hfind]
  · intro bytes hmem
    by_cases hany : (fs.files.any fun q => q.1 == blobPath access_code m.content) = true
    · by_cases hfe2 : folderEmpty
          { fs with files := fs.files.filter (fun p => p.1 != blobPath access_code m.content) }
          (ospath_dirname (blobPath access_code m.content)) = true
      · simp [delete_message, hfind, hcond, hany, hfe2] at hmem
      · simp [delete_message, hfind, hcond, hany, hfe2] at hmem
    · simp [delete_message, hfind, hcond, hany] at hmem
      exact hany (List.any_eq_true.mpr ⟨_, hmem, by simp⟩)
  · intro hex hfe hdirs
    obtain ⟨p, hp, hp1⟩ := hex
    have hany : (fs.files.any fun q => q.1 == blobPath access_code m.content) = true :=
      List.any_eq_true.mpr ⟨p, hp, by simp [hp1]⟩
    simp [delete_message, hfind, hcond, hany, hfe] at hdirs

/-- Witness for the amended C1 at the concrete fixture state. -/
theorem C1_delete_keeps_fileaccess_witness :
    dbFile.messages.find? (messageMatch 1 "abc") = some msgFile ∧
    (delete_message fsFile dbFile 1 "abc").2.2 = .ok "消息已删除" ∧
    (delete_message fsFile dbFile 1 "abc").2.1.fileAccess = dbFile.fileAccess := by
  have hfind : dbFile.messages.find? (messageMatch 1 "abc") = some msgFile := by decide
  have h := C1_delete_keeps_fileaccess fsFile dbFile 1 "abc" msgFile hfind
    (Or.inr (Or.inl rfl)) (by decide) (by decide)
  exact ⟨hfind, h.1, h.2.2.1⟩
